import Mathlib

/-!
Shallow embedding of `sparc/calculator.py` (class `SPARC`) and proofs about it.

Python dictionaries with string keys are modelled as association lists
(`Dict α := List (String × α)`) where an assignment `d[k] = v` conses the new
binding at the front (`dinsert`) and lookup (`dfind?`) returns the first
binding, so the most recent assignment shadows older ones, exactly as a
Python dict seen through `d[k]` / `k in d`.  `pop` removes every binding of
the key (`derase`), matching deletion from a dict.

External collaborators that are not part of this repository (the API
validator `SparcInputs.validate_input`, the grid helper `h2gpts`, the
executable finder `_find_default_sparc`, the unit constant `ase.units.Hartree`
and the structure's cell) are passed in as parameters, mirroring the spec's
treatment of them as a fixed external contract.
-/

/-- Python values that flow through the calculator's keyword dictionaries:
strings, numbers and numeric lists (grids, k-points, arrays), enough for
every parameter the embedded code inspects. -/
inductive Value where
  | str (s : String)
  | num (q : ℚ)
  | nums (l : List ℚ)
  deriving DecidableEq

/-- A Python dict with string keys, as an association list. -/
abbrev Dict (α : Type) : Type := List (String × α)

/-- `d[k]` / `d.get(k)`: the most recent binding of `k`, if any. -/
def dfind? {α : Type} : Dict α → String → Option α
  | [], _ => none
  | (k', v) :: d, k => if k' = k then some v else dfind? d k

/-- `k in d`. -/
def dcontains {α : Type} : Dict α → String → Bool
  | [], _ => false
  | (k', _) :: d, k => if k' = k then true else dcontains d k

/-- `d[k] = v`: the fresh binding shadows all older ones. -/
def dinsert {α : Type} (k : String) (v : α) (d : Dict α) : Dict α :=
  (k, v) :: d

/-- Key removal, as performed by `d.pop(k)`. -/
def derase {α : Type} (k : String) (d : Dict α) : Dict α :=
  d.filter (fun p => p.1 != k)

/-- Python's `str.lower()` on one character, for the ASCII strings the
calculator compares. -/
def lowerChar (c : Char) : Char :=
  if 'A' ≤ c ∧ c ≤ 'Z' then Char.ofNat (c.toNat + 32) else c

/-- Python's `str.lower()`, restricted to ASCII case folding. -/
def lowerStr (s : String) : String := String.mk (s.data.map lowerChar)

/-- Python's `str.upper()` on one character. -/
def upperChar (c : Char) : Char :=
  if 'a' ≤ c ∧ c ≤ 'z' then Char.ofNat (c.toNat - 32) else c

/-- Python's `str.upper()`, restricted to ASCII case folding. -/
def upperStr (s : String) : String := String.mk (s.data.map upperChar)

@[simp] theorem dfind?_nil {α : Type} (k : String) : dfind? ([] : Dict α) k = none := rfl

@[simp] theorem dfind?_cons {α : Type} (k k' : String) (v : α) (d : Dict α) :
    dfind? ((k', v) :: d) k = if k' = k then some v else dfind? d k := rfl

@[simp] theorem dfind?_dinsert {α : Type} (k k' : String) (v : α) (d : Dict α) :
    dfind? (dinsert k' v d) k = if k' = k then some v else dfind? d k := rfl

@[simp] theorem dcontains_nil {α : Type} (k : String) : dcontains ([] : Dict α) k = false := rfl

@[simp] theorem dcontains_cons {α : Type} (k k' : String) (v : α) (d : Dict α) :
    dcontains ((k', v) :: d) k = if k' = k then true else dcontains d k := rfl

theorem dcontains_iff_dfind? {α : Type} (d : Dict α) (k : String) :
    dcontains d k = true ↔ ∃ v, dfind? d k = some v := by
  induction d with
  | nil => simp
  | cons p rest ih =>
    obtain ⟨k', v⟩ := p
    by_cases h : k' = k <;> simp [h, ih]

theorem dfind?_some_dcontains {α : Type} (d : Dict α) (k : String) (v : α)
    (h : dfind? d k = some v) : dcontains d k = true :=
  (dcontains_iff_dfind? d k).mpr ⟨v, h⟩

/-- Exceptions the embedded code can raise, one constructor per raise site
(and a constructor for Python's own TypeError from calling a dict). -/
inductive PyError where
  | calculationFailed (msg : String)
  | typeErrorDictNotCallable
  | keyErrorHGpts
  | valueErrorHNoAtoms
  | valueErrorGpts (v : Value)
  | valueErrorKpts (v : Value)
  | valueErrorNbands (v : Value)
  | attributeErrorLower (v : Value)
  | valueErrorFermiUnit
  | environmentErrorNoSparc
  deriving DecidableEq

/-! ## `SPARC.execute` (calculator.py lines 146-166)

The subprocess has run; its return code decides the outcome:
`if errorcode > 0: raise CalculationFailed(msg)` else fall through to
`return`.  The message concatenates two adjacent f-strings (note: no space
between `{command}` and `with`). -/

/-- Outcome of `execute` as a function of the subprocess return code. -/
def execute_outcome (command : String) (returncode : Int) : Except PyError Unit :=
  if returncode > 0 then
    Except.error (PyError.calculationFailed
      ("SPARC failed with command " ++ command ++ "with error code " ++ toString returncode))
  else
    Except.ok ()

/-! ## `SPARC.read_results` dispatch (calculator.py lines 168-183)

```python
if "static" in self.raw_results:
    self._extract_static_results()
elif "geopt" in self.raw_results:
    self._extract_geopt_results()
elif "aimd" in self.raw_results():     # calls the dict: TypeError
    self._extract_aimd_results()
else:
    raise CalculationFailed("Cannot read SPARC output!")
```

The third condition writes `self.raw_results()` — calling a dict — so as soon
as neither `"static"` nor `"geopt"` is present, evaluating the condition
raises `TypeError: 'dict' object is not callable`; the `aimd` branch and the
`CalculationFailed` branch are unreachable. -/

/-- The output-parsing branch selected by `read_results`. -/
inductive Branch where
  | static
  | geopt
  | aimd
  deriving DecidableEq

/-- Branch dispatch of `read_results` over the raw-results dict. -/
def read_results_dispatch (raw : Dict Value) : Except PyError Branch :=
  if dcontains raw "static" then Except.ok Branch.static
  else if dcontains raw "geopt" then Except.ok Branch.geopt
  else Except.error PyError.typeErrorDictNotCallable

/-- C2: `execute` raises `CalculationFailed` exactly when the subprocess
return code is strictly positive; for any return code `≤ 0` (including the
negative codes Python reports for signal-terminated processes) it returns
normally. -/
theorem execute_raises_iff_positive (command : String) (returncode : Int) :
    ((∃ msg, execute_outcome command returncode = Except.error (PyError.calculationFailed msg)) ↔
      returncode > 0) ∧
    (returncode ≤ 0 → execute_outcome command returncode = Except.ok ()) := by
  constructor
  · constructor
    · intro ⟨msg, hmsg⟩
      by_contra hneg
      simp [execute_outcome, hneg] at hmsg
    · intro hpos
      refine ⟨"SPARC failed with command " ++ command ++ "with error code " ++
        toString returncode, ?_⟩
      simp [execute_outcome, hpos]
  · intro hle
    simp [execute_outcome, not_lt.mpr hle]

/-- Witness for C2 at return codes 1 and 0. -/
theorem execute_raises_iff_positive_witness :
    (∃ msg, execute_outcome "sparc" 1 = Except.error (PyError.calculationFailed msg)) ∧
    execute_outcome "sparc" 0 = Except.ok () :=
  ⟨(execute_raises_iff_positive "sparc" 1).1.mpr (by decide),
   (execute_raises_iff_positive "sparc" 0).2 (by decide)⟩

/-- C1: the dispatch of `read_results` as implemented.  The first two checks
(`"static"`, then `"geopt"`) behave as described, but a raw-results dict
containing only `"aimd"` — or none of the three keys — hits the expression
`self.raw_results()` on line 177, which calls the dict and raises
`TypeError`; the `aimd` branch is never selected and `CalculationFailed` is
never reached. -/
theorem read_results_dispatch_aimd_bug :
    read_results_dispatch [("aimd", Value.nums [])] =
      Except.error PyError.typeErrorDictNotCallable ∧
    read_results_dispatch [] = Except.error PyError.typeErrorDictNotCallable ∧
    read_results_dispatch [("static", Value.nums [])] = Except.ok Branch.static ∧
    read_results_dispatch [("geopt", Value.nums [])] = Except.ok Branch.geopt :=
  ⟨rfl, rfl, rfl, rfl⟩

/-! ## `SPARC._convert_special_params` (calculator.py lines 265-326)

The function copies `self.special_params` into `params` and threads two
dictionaries through five sequential blocks (`xc`, `h`, `gpts`, `kpts`,
`nbands`): `converted_sparc_params` collects the SPARC keywords, `params`
loses keys as they are popped (and gains `"gpts"` when `"h"` is converted).
Each block is one step function on the pair, and the whole function is the
sequential composition, with exceptions short-circuiting.

`validator.validate_input`, `h2gpts` and the atoms' cell come from outside
`calculator.py` and are parameters of the embedding.  `xc.lower()` on a
non-string value would raise `AttributeError`, which the embedding records
faithfully. -/

/-- The `xc --> EXCHANGE_CORRELATION` block. -/
def xc_step (converted params : Dict Value) : Except PyError (Dict Value × Dict Value) :=
  match dfind? params "xc" with
  | none => Except.ok (converted, params)
  | some (Value.str xc) =>
      let params := derase "xc" params
      if lowerStr xc = "pbe" then
        Except.ok (dinsert "EXCHANGE_CORRELATION" (Value.str "GGA_PBE") converted, params)
      else if lowerStr xc = "lda" then
        Except.ok (dinsert "EXCHANGE_CORRELATION" (Value.str "LDA_PW") converted, params)
      else
        Except.ok (converted, params)
  | some v => Except.error (PyError.attributeErrorLower v)

/-- The `h --> gpts` block: `KeyError` when `gpts` is also present,
`ValueError` when no atoms object is available, otherwise
`params["gpts"] = h2gpts(h, atoms.cell)`. -/
def h_step (Cell : Type) (h2gpts : Value → Cell → Value) (atoms : Option Cell)
    (converted params : Dict Value) : Except PyError (Dict Value × Dict Value) :=
  match dfind? params "h" with
  | none => Except.ok (converted, params)
  | some hv =>
      if dcontains params "gpts" then Except.error PyError.keyErrorHGpts
      else
        let params := derase "h" params
        match atoms with
        | none => Except.error PyError.valueErrorHNoAtoms
        | some cell => Except.ok (converted, dinsert "gpts" (h2gpts hv cell) params)

/-- The `gpts --> FD_GRID` block. -/
def gpts_step (validate : String → Value → Bool) (converted params : Dict Value) :
    Except PyError (Dict Value × Dict Value) :=
  match dfind? params "gpts" with
  | none => Except.ok (converted, params)
  | some gpts =>
      let params := derase "gpts" params
      if validate "FD_GRID" gpts then
        Except.ok (dinsert "FD_GRID" gpts converted, params)
      else Except.error (PyError.valueErrorGpts gpts)

/-- The `kpts --> KPOINT_GRID` block. -/
def kpts_step (validate : String → Value → Bool) (converted params : Dict Value) :
    Except PyError (Dict Value × Dict Value) :=
  match dfind? params "kpts" with
  | none => Except.ok (converted, params)
  | some kpts =>
      let params := derase "kpts" params
      if validate "KPOINT_GRID" kpts then
        Except.ok (dinsert "KPOINT_GRID" kpts converted, params)
      else Except.error (PyError.valueErrorKpts kpts)

/-- The `nbands --> NSTATES` block. -/
def nbands_step (validate : String → Value → Bool) (converted params : Dict Value) :
    Except PyError (Dict Value × Dict Value) :=
  match dfind? params "nbands" with
  | none => Except.ok (converted, params)
  | some nbands =>
      let params := derase "nbands" params
      if validate "NSTATES" nbands then
        Except.ok (dinsert "NSTATES" nbands converted, params)
      else Except.error (PyError.valueErrorNbands nbands)

/-- `_convert_special_params`: the five blocks in source order, returning
`converted_sparc_params`. -/
def convert_special_params (Cell : Type) (validate : String → Value → Bool)
    (h2gpts : Value → Cell → Value) (atoms : Option Cell) (special_params : Dict Value) :
    Except PyError (Dict Value) :=
  match xc_step [] special_params with
  | Except.error e => Except.error e
  | Except.ok (c1, p1) =>
    match h_step Cell h2gpts atoms c1 p1 with
    | Except.error e => Except.error e
    | Except.ok (c2, p2) =>
      match gpts_step validate c2 p2 with
      | Except.error e => Except.error e
      | Except.ok (c3, p3) =>
        match kpts_step validate c3 p3 with
        | Except.error e => Except.error e
        | Except.ok (c4, p4) =>
          match nbands_step validate c4 p4 with
          | Except.error e => Except.error e
          | Except.ok (c5, _) => Except.ok c5

/-- The `"xc"` entry of a params dict, when present, is a string (so
`xc.lower()` does not raise `AttributeError`). -/
def XcOk (params : Dict Value) : Prop :=
  ∀ v, dfind? params "xc" = some v → ∃ s, v = Value.str s


@[simp] theorem derase_cons {α : Type} (k' k₀ : String) (v : α) (d : Dict α) :
    derase k' ((k₀, v) :: d) = if k₀ = k' then derase k' d else (k₀, v) :: derase k' d := by
  by_cases h : k₀ = k' <;> simp [derase, List.filter_cons, h]

@[simp] theorem dfind?_derase {α : Type} (k k' : String) (d : Dict α) :
    dfind? (derase k' d) k = if k' = k then none else dfind? d k := by
  induction d with
  | nil => simp [derase]
  | cons p rest ih =>
    obtain ⟨k₀, v⟩ := p
    rw [derase_cons]
    by_cases h0 : k₀ = k' <;> by_cases h1 : k₀ = k <;> by_cases h2 : k' = k <;>
      simp_all

theorem dcontains_eq_isSome {α : Type} (d : Dict α) (k : String) :
    dcontains d k = (dfind? d k).isSome := by
  induction d with
  | nil => rfl
  | cons p rest ih =>
    obtain ⟨k', v⟩ := p
    by_cases h : k' = k <;> simp [h, ih]

theorem dcontains_derase {α : Type} (k k' : String) (d : Dict α) :
    dcontains (derase k' d) k = if k' = k then false else dcontains d k := by
  rw [dcontains_eq_isSome, dfind?_derase, dcontains_eq_isSome]
  by_cases h : k' = k <;> simp [h]

/-- When the `"xc"` entry is absent or a string, `xc_step` succeeds and
changes `params` at most by deleting `"xc"`. -/
theorem xc_step_ok (converted params : Dict Value) (hxc : XcOk params) :
    ∃ c' p', xc_step converted params = Except.ok (c', p') ∧
      ∀ k, k ≠ "xc" → dfind? p' k = dfind? params k := by
  cases hfind : dfind? params "xc" with
  | none =>
      exact ⟨converted, params, by simp [xc_step, hfind], fun k _ => rfl⟩
  | some v =>
      obtain ⟨s, rfl⟩ := hxc v hfind
      have hpres : ∀ k, k ≠ "xc" → dfind? (derase "xc" params) k = dfind? params k := by
        intro k hk
        have : ¬("xc" = k) := fun h => hk h.symm
        simp [this]
      by_cases h1 : lowerStr s = "pbe"
      · refine ⟨dinsert "EXCHANGE_CORRELATION" (Value.str "GGA_PBE") converted,
          derase "xc" params, ?_, hpres⟩
        simp [xc_step, hfind, h1]
      · by_cases h2 : lowerStr s = "lda"
        · refine ⟨dinsert "EXCHANGE_CORRELATION" (Value.str "LDA_PW") converted,
            derase "xc" params, ?_, hpres⟩
          simp [xc_step, hfind, h1, h2]
        · refine ⟨converted, derase "xc" params, ?_, hpres⟩
          simp [xc_step, hfind, h1, h2]

/-- C4: the generic parameter `xc` is translated to the SPARC keyword
`EXCHANGE_CORRELATION`: a value whose lower-case form is `"pbe"` yields
`"GGA_PBE"` and one whose lower-case form is `"lda"` yields `"LDA_PW"`. -/
theorem convert_special_params_xc (Cell : Type) (validate : String → Value → Bool)
    (h2gpts : Value → Cell → Value) (atoms : Option Cell) (s : String) :
    (lowerStr s = "pbe" →
      convert_special_params Cell validate h2gpts atoms [("xc", Value.str s)] =
        Except.ok [("EXCHANGE_CORRELATION", Value.str "GGA_PBE")]) ∧
    (lowerStr s = "lda" →
      convert_special_params Cell validate h2gpts atoms [("xc", Value.str s)] =
        Except.ok [("EXCHANGE_CORRELATION", Value.str "LDA_PW")]) := by
  constructor
  · intro h1
    simp [convert_special_params, xc_step, h1, derase, List.filter,
      h_step, gpts_step, kpts_step, nbands_step, dfind?, dinsert]
  · intro h2
    by_cases h1 : lowerStr s = "pbe"
    · rw [h1] at h2
      simp at h2
    · simp [convert_special_params, xc_step, h1, h2, derase, List.filter,
        h_step, gpts_step, kpts_step, nbands_step, dfind?, dinsert]

/-- Witness for C4 at the inputs `xc = "PBE"` and `xc = "Lda"`. -/
theorem convert_special_params_xc_witness :
    convert_special_params Unit (fun _ _ => true) (fun _ _ => Value.num 0) none
        [("xc", Value.str "PBE")] =
      Except.ok [("EXCHANGE_CORRELATION", Value.str "GGA_PBE")] ∧
    convert_special_params Unit (fun _ _ => true) (fun _ _ => Value.num 0) none
        [("xc", Value.str "Lda")] =
      Except.ok [("EXCHANGE_CORRELATION", Value.str "LDA_PW")] :=
  ⟨(convert_special_params_xc Unit (fun _ _ => true) (fun _ _ => Value.num 0) none "PBE").1
      (by decide),
   (convert_special_params_xc Unit (fun _ _ => true) (fun _ _ => Value.num 0) none "Lda").2
      (by decide)⟩

/-- C10: an `xc` value that is neither `"pbe"` nor `"lda"` (case-insensitively)
is popped and silently discarded: no error is raised and the returned
dictionary is empty, in particular it carries no `EXCHANGE_CORRELATION`. -/
theorem convert_special_params_xc_other (Cell : Type) (validate : String → Value → Bool)
    (h2gpts : Value → Cell → Value) (atoms : Option Cell) (s : String)
    (h1 : lowerStr s ≠ "pbe") (h2 : lowerStr s ≠ "lda") :
    convert_special_params Cell validate h2gpts atoms [("xc", Value.str s)] =
      Except.ok [] ∧
    ∀ d, convert_special_params Cell validate h2gpts atoms [("xc", Value.str s)] =
      Except.ok d → dcontains d "EXCHANGE_CORRELATION" = false := by
  have hok : convert_special_params Cell validate h2gpts atoms [("xc", Value.str s)] =
      Except.ok [] := by
    simp [convert_special_params, xc_step, h1, h2, derase, List.filter,
      h_step, gpts_step, kpts_step, nbands_step, dfind?]
  refine ⟨hok, fun d hd => ?_⟩
  rw [hok] at hd
  cases hd
  rfl

/-- Witness for C10 at the input `xc = "scan"`. -/
theorem convert_special_params_xc_other_witness :
    convert_special_params Unit (fun _ _ => true) (fun _ _ => Value.num 0) none
        [("xc", Value.str "scan")] = Except.ok [] :=
  (convert_special_params_xc_other Unit (fun _ _ => true) (fun _ _ => Value.num 0) none
      "scan" (by decide) (by decide)).1

/-- C5: the `h` parameter handling of `_convert_special_params`.  If both `h`
and `gpts` are present a `KeyError` is raised; if `h` is present, `gpts`
absent and no atoms object is given, a `ValueError` is raised; if `h` is
given alone and atoms are present, it is converted with `h2gpts` over the
atoms' cell and the result becomes the SPARC keyword `FD_GRID` (the
validator accepting the converted grid). -/
theorem convert_special_params_h (Cell : Type) (validate : String → Value → Bool)
    (h2gpts : Value → Cell → Value) :
    (∀ (atoms : Option Cell) (params : Dict Value), XcOk params →
        dcontains params "h" = true → dcontains params "gpts" = true →
        convert_special_params Cell validate h2gpts atoms params =
          Except.error PyError.keyErrorHGpts) ∧
    (∀ params : Dict Value, XcOk params → dcontains params "h" = true →
        dcontains params "gpts" = false →
        convert_special_params Cell validate h2gpts none params =
          Except.error PyError.valueErrorHNoAtoms) ∧
    (∀ (hv : Value) (cell : Cell), validate "FD_GRID" (h2gpts hv cell) = true →
        convert_special_params Cell validate h2gpts (some cell) [("h", hv)] =
          Except.ok [("FD_GRID", h2gpts hv cell)]) := by
  refine ⟨?_, ?_, ?_⟩
  · intro atoms params hxc hh hg
    obtain ⟨c', p', hstep, hpres⟩ := xc_step_ok [] params hxc
    have hh' : dcontains p' "h" = true := by
      rw [dcontains_eq_isSome, hpres "h" (by decide), ← dcontains_eq_isSome]
      exact hh
    have hg' : dcontains p' "gpts" = true := by
      rw [dcontains_eq_isSome, hpres "gpts" (by decide), ← dcontains_eq_isSome]
      exact hg
    obtain ⟨hv, hfind⟩ := (dcontains_iff_dfind? p' "h").mp hh'
    have hhs : h_step Cell h2gpts atoms c' p' = Except.error PyError.keyErrorHGpts := by
      simp [h_step, hfind, hg']
    simp [convert_special_params, hstep, hhs]
  · intro params hxc hh hg
    obtain ⟨c', p', hstep, hpres⟩ := xc_step_ok [] params hxc
    have hh' : dcontains p' "h" = true := by
      rw [dcontains_eq_isSome, hpres "h" (by decide), ← dcontains_eq_isSome]
      exact hh
    have hg' : dcontains p' "gpts" = false := by
      rw [dcontains_eq_isSome, hpres "gpts" (by decide), ← dcontains_eq_isSome]
      exact hg
    obtain ⟨hv, hfind⟩ := (dcontains_iff_dfind? p' "h").mp hh'
    have hhs : h_step Cell h2gpts none c' p' = Except.error PyError.valueErrorHNoAtoms := by
      simp [h_step, hfind, hg']
    simp [convert_special_params, hstep, hhs]
  · intro hv cell hval
    simp [convert_special_params, xc_step, h_step, gpts_step, kpts_step, nbands_step,
      dfind?, derase, List.filter, dinsert, hval]

/-- Witness for C5: a concrete run of each of the three branches. -/
theorem convert_special_params_h_witness :
    convert_special_params Unit (fun _ _ => true) (fun _ _ => Value.nums [25, 25, 25]) (some ())
        [("h", Value.num (1/5)), ("gpts", Value.nums [10, 10, 10])] =
      Except.error PyError.keyErrorHGpts ∧
    convert_special_params Unit (fun _ _ => true) (fun _ _ => Value.nums [25, 25, 25]) none
        [("h", Value.num (1/5))] = Except.error PyError.valueErrorHNoAtoms ∧
    convert_special_params Unit (fun _ _ => true) (fun _ _ => Value.nums [25, 25, 25]) (some ())
        [("h", Value.num (1/5))] = Except.ok [("FD_GRID", Value.nums [25, 25, 25])] :=
  ⟨(convert_special_params_h Unit (fun _ _ => true) (fun _ _ => Value.nums [25, 25, 25])).1
      (some ()) _ (fun v hv => by simp [dfind?] at hv) (by decide) (by decide),
   (convert_special_params_h Unit (fun _ _ => true) (fun _ _ => Value.nums [25, 25, 25])).2.1
      _ (fun v hv => by simp [dfind?] at hv) (by decide) (by decide),
   (convert_special_params_h Unit (fun _ _ => true) (fun _ _ => Value.nums [25, 25, 25])).2.2
      (Value.num (1/5)) () rfl⟩

/-! ## `SPARC.get_last_ionic_step`, `_extract_out_results`,
`_extract_static_results` (calculator.py lines 185-228)

The `.out` parse is a dict under key `"out"` of the raw results, itself
holding a list under `"ionic_steps"`; both keys may be absent (`.get` with a
default).  An ionic step may carry a `"fermi level"` entry with a `value`
and a `unit`; no other field of a step is inspected, so a step is embedded
as that optional entry and `{}` as `none`.  `ase.units.Hartree` is a
parameter.  The calculator's `self.results` dict maps keys to values. -/

/-- The `{"value": .., "unit": ..}` dict stored under `"fermi level"`. -/
structure FermiEntry where
  value : ℚ
  unit : String
  deriving DecidableEq

/-- An ionic step of the `.out` parse; only the Fermi-level entry is ever
read by the calculator, and the empty dict is `none`. -/
structure IonicStep where
  fermiLevel : Option FermiEntry
  deriving DecidableEq

/-- The `"out"` section of the raw results; the `"ionic_steps"` key may be
absent. -/
structure OutResults where
  ionic_steps : Option (List IonicStep)
  deriving DecidableEq

/-- `{}` as an ionic step. -/
def emptyIonicStep : IonicStep := { fermiLevel := none }

/-- `self.raw_results.get("out", {}).get("ionic_steps", [])`. -/
def ionicSteps (raw_out : Option OutResults) : List IonicStep :=
  (raw_out.getD { ionic_steps := none }).ionic_steps.getD []

/-- `get_last_ionic_step`: the last ionic step when the list is non-empty,
the empty dict otherwise. -/
def get_last_ionic_step (raw_out : Option OutResults) : IonicStep :=
  let ionic_steps := ionicSteps raw_out
  if ionic_steps.length > 0 then ionic_steps.getLastD emptyIonicStep
  else emptyIonicStep

/-- `_extract_out_results`: store the Fermi level of the last ionic step into
`results["fermi"]`, converting according to the unit string. -/
def extract_out_results (Hartree : ℚ) (raw_out : Option OutResults)
    (results : Dict Value) : Except PyError (Dict Value) :=
  let last_step := get_last_ionic_step raw_out
  match last_step.fermiLevel with
  | none => Except.ok results
  | some f =>
      if lowerStr f.unit = "ev" then
        Except.ok (dinsert "fermi" (Value.num f.value) results)
      else if lowerStr f.unit = "hartree" then
        Except.ok (dinsert "fermi" (Value.num (f.value * Hartree)) results)
      else Except.error PyError.valueErrorFermiUnit

/-- `_extract_static_results` over `static_results = raw_results.get("static", {})`:
conditional copies into `self.results`. -/
def extract_static_results (static : Dict Value) (results : Dict Value) : Dict Value :=
  let results :=
    match dfind? static "free energy" with
    | some e => dinsert "free energy" e (dinsert "energy" e results)
    | none => results
  let results :=
    match dfind? static "forces" with
    | some f => dinsert "forces" f results
    | none => results
  match dfind? static "stress" with
  | some sv => dinsert "stress" sv results
  | none => results

/-- C9: `get_last_ionic_step` is total.  With no `"out"` entry, no
`"ionic_steps"` key or an empty list it returns the empty dict, and with a
non-empty list it returns the last element; no other outcome (in particular
no out-of-bounds access) is possible. -/
theorem get_last_ionic_step_total (raw_out : Option OutResults) :
    (ionicSteps raw_out = [] → get_last_ionic_step raw_out = emptyIonicStep) ∧
    (∀ (l : List IonicStep) (s : IonicStep), ionicSteps raw_out = l ++ [s] →
        get_last_ionic_step raw_out = s) ∧
    (get_last_ionic_step raw_out = emptyIonicStep ∨
      ∃ s ∈ ionicSteps raw_out, get_last_ionic_step raw_out = s) := by
  refine ⟨?_, ?_, ?_⟩
  · intro h
    simp [get_last_ionic_step, h]
  · intro l s h
    simp [get_last_ionic_step, h, List.getLastD_concat]
  · cases h : ionicSteps raw_out with
    | nil => exact Or.inl (by simp [get_last_ionic_step, h])
    | cons a rest =>
      refine Or.inr ⟨(a :: rest).getLastD emptyIonicStep, ?_, by simp [get_last_ionic_step, h]⟩
      rw [List.getLastD_eq_getLast?, List.getLast?_eq_getLast (a :: rest) (by simp)]
      simp [List.getLast_mem]

/-- Witness for C9 on an absent `"out"` entry and on a two-step list. -/
theorem get_last_ionic_step_total_witness :
    get_last_ionic_step none = emptyIonicStep ∧
    get_last_ionic_step
        (some { ionic_steps := some [{ fermiLevel := none },
          { fermiLevel := some { value := 1, unit := "eV" } }] }) =
      { fermiLevel := some { value := 1, unit := "eV" } } :=
  ⟨(get_last_ionic_step_total none).1 rfl,
   (get_last_ionic_step_total _).2.1 [{ fermiLevel := none }]
      { fermiLevel := some { value := 1, unit := "eV" } } rfl⟩

/-- C6: the Fermi level of the last ionic step is stored into
`results["fermi"]` unchanged when its unit lower-cases to `"ev"`, multiplied
by the Hartree constant when it lower-cases to `"hartree"`, and any other
unit raises `ValueError`; a last step without a `"fermi level"` entry leaves
`results` unchanged and raises nothing. -/
theorem extract_out_results_fermi (Hartree : ℚ) (raw_out : Option OutResults)
    (results : Dict Value) :
    (∀ f, (get_last_ionic_step raw_out).fermiLevel = some f →
      (lowerStr f.unit = "ev" →
        extract_out_results Hartree raw_out results =
          Except.ok (dinsert "fermi" (Value.num f.value) results)) ∧
      (lowerStr f.unit = "hartree" →
        extract_out_results Hartree raw_out results =
          Except.ok (dinsert "fermi" (Value.num (f.value * Hartree)) results)) ∧
      (lowerStr f.unit ≠ "ev" → lowerStr f.unit ≠ "hartree" →
        extract_out_results Hartree raw_out results =
          Except.error PyError.valueErrorFermiUnit)) ∧
    ((get_last_ionic_step raw_out).fermiLevel = none →
      extract_out_results Hartree raw_out results = Except.ok results) := by
  constructor
  · intro f hf
    refine ⟨?_, ?_, ?_⟩
    · intro hu
      simp [extract_out_results, hf, hu]
    · intro hu
      by_cases hev : lowerStr f.unit = "ev"
      · rw [hev] at hu
        simp at hu
      · simp [extract_out_results, hf, hev, hu]
    · intro h1 h2
      simp [extract_out_results, hf, h1, h2]
  · intro hf
    simp [extract_out_results, hf]

/-- A `.out` parse whose single ionic step reports the Fermi level in eV. -/
def outFermiEV : OutResults :=
  { ionic_steps := some [{ fermiLevel := some { value := 2, unit := "eV" } }] }

/-- A `.out` parse whose single ionic step reports the Fermi level in
Hartree. -/
def outFermiHa : OutResults :=
  { ionic_steps := some [{ fermiLevel := some { value := 2, unit := "Hartree" } }] }

/-- Witness for C6: units `"eV"`, `"Hartree"` and a missing entry. -/
theorem extract_out_results_fermi_witness :
    extract_out_results 27 (some outFermiEV) [] = Except.ok [("fermi", Value.num 2)] ∧
    extract_out_results 27 (some outFermiHa) [] = Except.ok [("fermi", Value.num 54)] ∧
    extract_out_results 27 none [("energy", Value.num 5)] =
      Except.ok [("energy", Value.num 5)] := by
  refine ⟨?_, ?_, ?_⟩
  · have h := ((extract_out_results_fermi 27 (some outFermiEV) []).1
      { value := 2, unit := "eV" } rfl).1 (by decide)
    rw [h]
    rfl
  · have h := ((extract_out_results_fermi 27 (some outFermiHa) []).1
      { value := 2, unit := "Hartree" } rfl).2.1 (by decide)
    rw [h]
    exact congrArg Except.ok (by norm_num [dinsert])
  · exact (extract_out_results_fermi 27 none [("energy", Value.num 5)]).2 rfl

/-- C7: `_extract_static_results` copies the static `"free energy"` into both
`results["energy"]` and `results["free energy"]`, the static forces into
`results["forces"]` and the static stress into `results["stress"]`, each only
when present in the static results; any other key of `results`, and any of
the four whose source entry is absent, keeps its previous value. -/
theorem extract_static_results_frame (static results : Dict Value) :
    (∀ e, dfind? static "free energy" = some e →
        dfind? (extract_static_results static results) "energy" = some e ∧
        dfind? (extract_static_results static results) "free energy" = some e) ∧
    (dfind? static "free energy" = none →
        dfind? (extract_static_results static results) "energy" = dfind? results "energy" ∧
        dfind? (extract_static_results static results) "free energy" =
          dfind? results "free energy") ∧
    (∀ f, dfind? static "forces" = some f →
        dfind? (extract_static_results static results) "forces" = some f) ∧
    (dfind? static "forces" = none →
        dfind? (extract_static_results static results) "forces" = dfind? results "forces") ∧
    (∀ sv, dfind? static "stress" = some sv →
        dfind? (extract_static_results static results) "stress" = some sv) ∧
    (dfind? static "stress" = none →
        dfind? (extract_static_results static results) "stress" = dfind? results "stress") ∧
    (∀ k, k ≠ "energy" → k ≠ "free energy" → k ≠ "forces" → k ≠ "stress" →
        dfind? (extract_static_results static results) k = dfind? results k) := by
  refine ⟨?_, ?_, ?_, ?_, ?_, ?_, ?_⟩
  · intro e he
    cases hf : dfind? static "forces" <;> cases hs : dfind? static "stress" <;>
      simp [extract_static_results, he, hf, hs]
  · intro he
    cases hf : dfind? static "forces" <;> cases hs : dfind? static "stress" <;>
      simp [extract_static_results, he, hf, hs]
  · intro f hf
    cases he : dfind? static "free energy" <;> cases hs : dfind? static "stress" <;>
      simp [extract_static_results, he, hf, hs]
  · intro hf
    cases he : dfind? static "free energy" <;> cases hs : dfind? static "stress" <;>
      simp [extract_static_results, he, hf, hs]
  · intro sv hs
    cases he : dfind? static "free energy" <;> cases hf : dfind? static "forces" <;>
      simp [extract_static_results, he, hf, hs]
  · intro hs
    cases he : dfind? static "free energy" <;> cases hf : dfind? static "forces" <;>
      simp [extract_static_results, he, hf, hs]
  · intro k h1 h2 h3 h4
    have h1' : ¬("energy" = k) := fun h => h1 h.symm
    have h2' : ¬("free energy" = k) := fun h => h2 h.symm
    have h3' : ¬("forces" = k) := fun h => h3 h.symm
    have h4' : ¬("stress" = k) := fun h => h4 h.symm
    cases he : dfind? static "free energy" <;> cases hf : dfind? static "forces" <;>
      cases hs : dfind? static "stress" <;>
      simp [extract_static_results, he, hf, hs, h1', h2', h3', h4']

/-- Witness for C7 on a static result with energy and forces but no stress. -/
theorem extract_static_results_frame_witness :
    dfind? (extract_static_results
        [("free energy", Value.num (-3)), ("forces", Value.nums [0, 0, 1])]
        [("fermi", Value.num 1), ("stress", Value.nums [9])]) "energy" =
      some (Value.num (-3)) ∧
    dfind? (extract_static_results
        [("free energy", Value.num (-3)), ("forces", Value.nums [0, 0, 1])]
        [("fermi", Value.num 1), ("stress", Value.nums [9])]) "stress" =
      some (Value.nums [9]) ∧
    dfind? (extract_static_results
        [("free energy", Value.num (-3)), ("forces", Value.nums [0, 0, 1])]
        [("fermi", Value.num 1), ("stress", Value.nums [9])]) "fermi" =
      some (Value.num 1) := by
  refine ⟨?_, ?_, ?_⟩
  · exact ((extract_static_results_frame _ _).1 (Value.num (-3)) (by decide)).1
  · have h := (extract_static_results_frame
        [("free energy", Value.num (-3)), ("forces", Value.nums [0, 0, 1])]
        [("fermi", Value.num 1), ("stress", Value.nums [9])]).2.2.2.2.2.1 (by decide)
    rw [h]
    decide
  · have h := (extract_static_results_frame
        [("free energy", Value.num (-3)), ("forces", Value.nums [0, 0, 1])]
        [("fermi", Value.num 1), ("stress", Value.nums [9])]).2.2.2.2.2.2 "fermi"
        (by decide) (by decide) (by decide) (by decide)
    rw [h]
    decide

/-! ## `SPARC._make_command` (calculator.py lines 80-111)

Precedence: an explicitly set `self.command`, else `$ASE_SPARC_COMMAND`, else
`_find_default_sparc()`; if the latter finds no executable an
`EnvironmentError` is raised, and a found executable is wrapped with the MPI
launcher and core count when one is present.  The result is
`f"{self.command} {extras}"`.  The environment variable and the finder's
result are parameters of the embedding. -/

/-- The result of `_find_default_sparc()`: the sparc executable found on the
PATH (if any), the MPI launcher (if any) and the core count. -/
structure SparcDefault where
  sparc_exe : Option String
  mpi_exe : Option String
  num_cores : Nat
  deriving DecidableEq

/-- The `extras` argument: a list/tuple of strings, or a plain string. -/
inductive Extras where
  | str (s : String)
  | list (l : List String)
  deriving DecidableEq

/-- Python whitespace stripped by `str.strip()` (ASCII subset). -/
def isPyWS (c : Char) : Bool :=
  c = ' ' ∨ c = '\t' ∨ c = '\n' ∨ c = '\r'

/-- `extras.strip()`. -/
def stripStr (s : String) : String :=
  String.mk (((s.data.dropWhile isPyWS).reverse.dropWhile isPyWS).reverse)

/-- `" ".join(extras)` for a list/tuple, `extras.strip()` for a string. -/
def joinExtras : Extras → String
  | Extras.list l => String.intercalate " " l
  | Extras.str s => stripStr s

/-- `_make_command`. -/
def make_command (command : Option String) (env_command : Option String)
    (found : SparcDefault) (extras : Extras) : Except PyError String :=
  let extras := joinExtras extras
  match command with
  | some cmd => Except.ok (cmd ++ " " ++ extras)
  | none =>
    match env_command with
    | some cmd => Except.ok (cmd ++ " " ++ extras)
    | none =>
      match found.sparc_exe with
      | none => Except.error PyError.environmentErrorNoSparc
      | some exe =>
        match found.mpi_exe with
        | some mpi =>
            Except.ok (mpi ++ " -n " ++ toString found.num_cores ++ " " ++ exe ++ " " ++ extras)
        | none => Except.ok (exe ++ " " ++ extras)

/-- C8: `_make_command` resolves the command with precedence `self.command`,
then `$ASE_SPARC_COMMAND`, then the PATH-inferred executable (wrapped with
the MPI launcher and core count when found); with none of the three it
raises `EnvironmentError`, and on success the result is the resolved command
followed by the extras string. -/
theorem make_command_precedence (command env_command : Option String)
    (found : SparcDefault) (extras : Extras) :
    (∀ cmd, command = some cmd →
        make_command command env_command found extras =
          Except.ok (cmd ++ " " ++ joinExtras extras)) ∧
    (∀ cmd, command = none → env_command = some cmd →
        make_command command env_command found extras =
          Except.ok (cmd ++ " " ++ joinExtras extras)) ∧
    (command = none → env_command = none → found.sparc_exe = none →
        make_command command env_command found extras =
          Except.error PyError.environmentErrorNoSparc) ∧
    (∀ exe mpi, command = none → env_command = none → found.sparc_exe = some exe →
        found.mpi_exe = some mpi →
        make_command command env_command found extras =
          Except.ok (mpi ++ " -n " ++ toString found.num_cores ++ " " ++ exe ++ " " ++
            joinExtras extras)) ∧
    (∀ exe, command = none → env_command = none → found.sparc_exe = some exe →
        found.mpi_exe = none →
        make_command command env_command found extras =
          Except.ok (exe ++ " " ++ joinExtras extras)) := by
  refine ⟨?_, ?_, ?_, ?_, ?_⟩
  · intro cmd h
    simp [make_command, h]
  · intro cmd h1 h2
    simp [make_command, h1, h2]
  · intro h1 h2 h3
    simp [make_command, h1, h2, h3]
  · intro exe mpi h1 h2 h3 h4
    simp [make_command, h1, h2, h3, h4]
  · intro exe h1 h2 h3 h4
    simp [make_command, h1, h2, h3, h4]

/-- Witness for C8: each precedence level at a concrete configuration. -/
theorem make_command_precedence_witness :
    make_command (some "mpirun -n 2 sparc") none
        { sparc_exe := none, mpi_exe := none, num_cores := 0 } (Extras.str " -name SPARC ") =
      Except.ok ("mpirun -n 2 sparc" ++ " " ++ joinExtras (Extras.str " -name SPARC ")) ∧
    make_command none (some "srun sparc")
        { sparc_exe := none, mpi_exe := none, num_cores := 0 } (Extras.str "-name SPARC") =
      Except.ok ("srun sparc" ++ " " ++ joinExtras (Extras.str "-name SPARC")) ∧
    make_command none none { sparc_exe := none, mpi_exe := none, num_cores := 0 }
        (Extras.str "-name SPARC") = Except.error PyError.environmentErrorNoSparc ∧
    make_command none none
        { sparc_exe := some "/usr/bin/sparc", mpi_exe := some "mpirun", num_cores := 4 }
        (Extras.list ["-name", "SPARC"]) =
      Except.ok ("mpirun" ++ " -n " ++ toString 4 ++ " " ++ "/usr/bin/sparc" ++ " " ++
        joinExtras (Extras.list ["-name", "SPARC"])) :=
  ⟨(make_command_precedence (some "mpirun -n 2 sparc") none
      { sparc_exe := none, mpi_exe := none, num_cores := 0 }
      (Extras.str " -name SPARC ")).1 "mpirun -n 2 sparc" rfl,
   (make_command_precedence none (some "srun sparc")
      { sparc_exe := none, mpi_exe := none, num_cores := 0 }
      (Extras.str "-name SPARC")).2.1 "srun sparc" rfl rfl,
   (make_command_precedence none none
      { sparc_exe := none, mpi_exe := none, num_cores := 0 }
      (Extras.str "-name SPARC")).2.2.1 rfl rfl rfl,
   (make_command_precedence none none
      { sparc_exe := some "/usr/bin/sparc", mpi_exe := some "mpirun", num_cores := 4 }
      (Extras.list ["-name", "SPARC"])).2.2.2.1 "/usr/bin/sparc" "mpirun" rfl rfl rfl rfl⟩

/-! ## `SPARC._sanitize_kwargs` (calculator.py lines 20, 32, 241-263)

The loop over `kwargs.items()` threads two dicts: a key listed in
`special_inputs = sparc_python_inputs` is stored into `special_params`
unchanged; any other key is upper-cased and stored into `valid_params` when
`validator.validate_input(key, value)` accepts the value, and dropped with a
warning otherwise (duplicate upper-cased keys also only warn).  The
validator is a parameter of the embedding. -/

/-- `sparc_python_inputs` (line 20), aliased as `special_inputs`. -/
def sparc_python_inputs : List String :=
  ["xc", "h", "kpts", "convergence", "gpts", "nbands", "encut"]

/-- The loop of `_sanitize_kwargs`, threading `(valid_params, special_params)`. -/
def sanitize_aux (validate : String → Value → Bool) :
    List (String × Value) → Dict Value × Dict Value → Dict Value × Dict Value
  | [], acc => acc
  | (key, value) :: rest, (valid_params, special_params) =>
      if key ∈ sparc_python_inputs then
        sanitize_aux validate rest (valid_params, dinsert key value special_params)
      else
        if validate (upperStr key) value then
          sanitize_aux validate rest (dinsert (upperStr key) value valid_params, special_params)
        else
          sanitize_aux validate rest (valid_params, special_params)

/-- `_sanitize_kwargs`, returning `(valid_params, special_params)`. -/
def sanitize_kwargs (validate : String → Value → Bool) (kwargs : List (String × Value)) :
    Dict Value × Dict Value :=
  sanitize_aux validate kwargs ([], [])

/-- The upper-cased key a kwargs entry contributes to `valid_params`, `none`
for special keys. -/
def upKey? (kv : String × Value) : Option String :=
  if kv.1 ∈ sparc_python_inputs then none else some (upperStr kv.1)

theorem sanitize_aux_special_pres (validate : String → Value → Bool)
    (l : List (String × Value)) :
    ∀ (acc : Dict Value × Dict Value) (k : String), k ∉ l.map Prod.fst →
      dfind? (sanitize_aux validate l acc).2 k = dfind? acc.2 k := by
  induction l with
  | nil => intro acc k _; rfl
  | cons kv rest ih =>
    intro acc k hk
    obtain ⟨key, value⟩ := kv
    obtain ⟨valid_params, special_params⟩ := acc
    simp only [List.map_cons, List.mem_cons, not_or] at hk
    obtain ⟨hne, hrest⟩ := hk
    have hne' : ¬(key = k) := fun h => hne h.symm
    by_cases hs : key ∈ sparc_python_inputs
    · rw [show sanitize_aux validate ((key, value) :: rest)
          (valid_params, special_params) =
          sanitize_aux validate rest (valid_params, dinsert key value special_params) from by
        simp [sanitize_aux, hs]]
      rw [ih _ k hrest]
      simp [hne']
    · by_cases hv : validate (upperStr key) value
      · rw [show sanitize_aux validate ((key, value) :: rest)
            (valid_params, special_params) =
            sanitize_aux validate rest
              (dinsert (upperStr key) value valid_params, special_params) from by
          simp [sanitize_aux, hs, hv]]
        exact ih _ k hrest
      · rw [show sanitize_aux validate ((key, value) :: rest)
            (valid_params, special_params) =
            sanitize_aux validate rest (valid_params, special_params) from by
          simp [sanitize_aux, hs, hv]]
        exact ih _ k hrest

theorem sanitize_aux_valid_pres (validate : String → Value → Bool)
    (l : List (String × Value)) :
    ∀ (acc : Dict Value × Dict Value) (K : String), K ∉ l.filterMap upKey? →
      dfind? (sanitize_aux validate l acc).1 K = dfind? acc.1 K := by
  induction l with
  | nil => intro acc K _; rfl
  | cons kv rest ih =>
    intro acc K hK
    obtain ⟨key, value⟩ := kv
    obtain ⟨valid_params, special_params⟩ := acc
    by_cases hs : key ∈ sparc_python_inputs
    · have hrest : K ∉ rest.filterMap upKey? := by
        simpa [List.filterMap_cons, upKey?, hs] using hK
      rw [show sanitize_aux validate ((key, value) :: rest)
          (valid_params, special_params) =
          sanitize_aux validate rest (valid_params, dinsert key value special_params) from by
        simp [sanitize_aux, hs]]
      exact ih _ K hrest
    · have hK' : ¬(upperStr key = K) ∧ K ∉ rest.filterMap upKey? := by
        have := hK
        simp only [List.filterMap_cons, upKey?, hs, if_false, List.mem_cons, not_or] at this
        exact ⟨fun h => this.1 h.symm, this.2⟩
      by_cases hv : validate (upperStr key) value
      · rw [show sanitize_aux validate ((key, value) :: rest)
            (valid_params, special_params) =
            sanitize_aux validate rest
              (dinsert (upperStr key) value valid_params, special_params) from by
          simp [sanitize_aux, hs, hv]]
        rw [ih _ K hK'.2]
        simp [hK'.1]
      · rw [show sanitize_aux validate ((key, value) :: rest)
            (valid_params, special_params) =
            sanitize_aux validate rest (valid_params, special_params) from by
          simp [sanitize_aux, hs, hv]]
        exact ih _ K hK'.2

theorem sanitize_aux_special_mem (validate : String → Value → Bool)
    (l : List (String × Value)) :
    ∀ (acc : Dict Value × Dict Value) (k : String),
      dcontains (sanitize_aux validate l acc).2 k = true →
      dcontains acc.2 k = true ∨ (k ∈ sparc_python_inputs ∧ ∃ v, (k, v) ∈ l) := by
  induction l with
  | nil => intro acc k h; exact Or.inl h
  | cons kv rest ih =>
    intro acc k h
    obtain ⟨key, value⟩ := kv
    obtain ⟨valid_params, special_params⟩ := acc
    by_cases hs : key ∈ sparc_python_inputs
    · rw [show sanitize_aux validate ((key, value) :: rest)
          (valid_params, special_params) =
          sanitize_aux validate rest (valid_params, dinsert key value special_params) from by
        simp [sanitize_aux, hs]] at h
      rcases ih _ k h with hacc | ⟨hk, v, hv⟩
      · by_cases hkey : key = k
        · subst hkey
          exact Or.inr ⟨hs, value, List.mem_cons_self _ _⟩
        · simp only [dinsert, dcontains_cons, hkey, if_false] at hacc
          exact Or.inl hacc
      · exact Or.inr ⟨hk, v, List.mem_cons_of_mem _ hv⟩
    · by_cases hv : validate (upperStr key) value
      · rw [show sanitize_aux validate ((key, value) :: rest)
            (valid_params, special_params) =
            sanitize_aux validate rest
              (dinsert (upperStr key) value valid_params, special_params) from by
          simp [sanitize_aux, hs, hv]] at h
        rcases ih _ k h with hacc | ⟨hk, v, hvm⟩
        · exact Or.inl hacc
        · exact Or.inr ⟨hk, v, List.mem_cons_of_mem _ hvm⟩
      · rw [show sanitize_aux validate ((key, value) :: rest)
            (valid_params, special_params) =
            sanitize_aux validate rest (valid_params, special_params) from by
          simp [sanitize_aux, hs, hv]] at h
        rcases ih _ k h with hacc | ⟨hk, v, hvm⟩
        · exact Or.inl hacc
        · exact Or.inr ⟨hk, v, List.mem_cons_of_mem _ hvm⟩

theorem sanitize_aux_valid_mem (validate : String → Value → Bool)
    (l : List (String × Value)) :
    ∀ (acc : Dict Value × Dict Value) (K : String),
      dcontains (sanitize_aux validate l acc).1 K = true →
      dcontains acc.1 K = true ∨ ∃ kv, kv ∈ l ∧ kv.1 ∉ sparc_python_inputs ∧
        upperStr kv.1 = K ∧ validate K kv.2 = true := by
  induction l with
  | nil => intro acc K h; exact Or.inl h
  | cons kv rest ih =>
    intro acc K h
    obtain ⟨key, value⟩ := kv
    obtain ⟨valid_params, special_params⟩ := acc
    by_cases hs : key ∈ sparc_python_inputs
    · rw [show sanitize_aux validate ((key, value) :: rest)
          (valid_params, special_params) =
          sanitize_aux validate rest (valid_params, dinsert key value special_params) from by
        simp [sanitize_aux, hs]] at h
      rcases ih _ K h with hacc | ⟨kv', hm, hns, hup, hval⟩
      · exact Or.inl hacc
      · exact Or.inr ⟨kv', List.mem_cons_of_mem _ hm, hns, hup, hval⟩
    · by_cases hv : validate (upperStr key) value
      · rw [show sanitize_aux validate ((key, value) :: rest)
            (valid_params, special_params) =
            sanitize_aux validate rest
              (dinsert (upperStr key) value valid_params, special_params) from by
          simp [sanitize_aux, hs, hv]] at h
        rcases ih _ K h with hacc | ⟨kv', hm, hns, hup, hval⟩
        · by_cases hkey : upperStr key = K
          · subst hkey
            exact Or.inr ⟨(key, value), List.mem_cons_self _ _, hs, rfl, hv⟩
          · simp only [dinsert, dcontains_cons, hkey, if_false] at hacc
            exact Or.inl hacc
        · exact Or.inr ⟨kv', List.mem_cons_of_mem _ hm, hns, hup, hval⟩
      · rw [show sanitize_aux validate ((key, value) :: rest)
            (valid_params, special_params) =
            sanitize_aux validate rest (valid_params, special_params) from by
          simp [sanitize_aux, hs, hv]] at h
        rcases ih _ K h with hacc | ⟨kv', hm, hns, hup, hval⟩
        · exact Or.inl hacc
        · exact Or.inr ⟨kv', List.mem_cons_of_mem _ hm, hns, hup, hval⟩

theorem sanitize_aux_special_find (validate : String → Value → Bool)
    (l : List (String × Value)) :
    (l.map Prod.fst).Nodup →
    ∀ (acc : Dict Value × Dict Value) (kv : String × Value), kv ∈ l →
      kv.1 ∈ sparc_python_inputs →
      dfind? (sanitize_aux validate l acc).2 kv.1 = some kv.2 := by
  induction l with
  | nil => intro _ acc kv h; cases h
  | cons hd rest ih =>
    intro hnd acc kv hm hsp
    obtain ⟨key, value⟩ := hd
    obtain ⟨valid_params, special_params⟩ := acc
    simp only [List.map_cons, List.nodup_cons] at hnd
    obtain ⟨hknotin, hndrest⟩ := hnd
    rcases List.mem_cons.mp hm with heq | hmrest
    · rw [heq] at hsp ⊢
      have hsp' : key ∈ sparc_python_inputs := hsp
      show dfind? (sanitize_aux validate ((key, value) :: rest)
          (valid_params, special_params)).2 key = some value
      rw [show sanitize_aux validate ((key, value) :: rest)
          (valid_params, special_params) =
          sanitize_aux validate rest (valid_params, dinsert key value special_params) from by
        simp [sanitize_aux, hsp']]
      rw [sanitize_aux_special_pres validate rest _ key hknotin]
      simp [dinsert]
    · by_cases hs : key ∈ sparc_python_inputs
      · rw [show sanitize_aux validate ((key, value) :: rest)
            (valid_params, special_params) =
            sanitize_aux validate rest (valid_params, dinsert key value special_params) from by
          simp [sanitize_aux, hs]]
        exact ih hndrest _ kv hmrest hsp
      · by_cases hv : validate (upperStr key) value
        · rw [show sanitize_aux validate ((key, value) :: rest)
              (valid_params, special_params) =
              sanitize_aux validate rest
                (dinsert (upperStr key) value valid_params, special_params) from by
            simp [sanitize_aux, hs, hv]]
          exact ih hndrest _ kv hmrest hsp
        · rw [show sanitize_aux validate ((key, value) :: rest)
              (valid_params, special_params) =
              sanitize_aux validate rest (valid_params, special_params) from by
            simp [sanitize_aux, hs, hv]]
          exact ih hndrest _ kv hmrest hsp

theorem sanitize_aux_valid_find (validate : String → Value → Bool)
    (l : List (String × Value)) :
    (l.filterMap upKey?).Nodup →
    ∀ (acc : Dict Value × Dict Value) (kv : String × Value), kv ∈ l →
      kv.1 ∉ sparc_python_inputs → validate (upperStr kv.1) kv.2 = true →
      dfind? (sanitize_aux validate l acc).1 (upperStr kv.1) = some kv.2 := by
  induction l with
  | nil => intro _ acc kv h; cases h
  | cons hd rest ih =>
    intro hnd acc kv hm hns hval
    obtain ⟨key, value⟩ := hd
    obtain ⟨valid_params, special_params⟩ := acc
    rcases List.mem_cons.mp hm with heq | hmrest
    · rw [heq] at hns hval ⊢
      have hns' : key ∉ sparc_python_inputs := hns
      have hval' : validate (upperStr key) value = true := hval
      show dfind? (sanitize_aux validate ((key, value) :: rest)
          (valid_params, special_params)).1 (upperStr key) = some value
      have hup_notin : upperStr key ∉ rest.filterMap upKey? := by
        have := hnd
        simp only [List.filterMap_cons, upKey?, hns', if_false, List.nodup_cons] at this
        exact this.1
      rw [show sanitize_aux validate ((key, value) :: rest)
          (valid_params, special_params) =
          sanitize_aux validate rest
            (dinsert (upperStr key) value valid_params, special_params) from by
        simp [sanitize_aux, hns', hval']]
      rw [sanitize_aux_valid_pres validate rest _ (upperStr key) hup_notin]
      simp [dinsert]
    · by_cases hs : key ∈ sparc_python_inputs
      · have hndrest : (rest.filterMap upKey?).Nodup := by
          simpa [List.filterMap_cons, upKey?, hs] using hnd
        rw [show sanitize_aux validate ((key, value) :: rest)
            (valid_params, special_params) =
            sanitize_aux validate rest (valid_params, dinsert key value special_params) from by
          simp [sanitize_aux, hs]]
        exact ih hndrest _ kv hmrest hns hval
      · have hndrest : (rest.filterMap upKey?).Nodup := by
          have := hnd
          simp only [List.filterMap_cons, upKey?, hs, if_false, List.nodup_cons] at this
          exact this.2
        by_cases hv : validate (upperStr key) value
        · rw [show sanitize_aux validate ((key, value) :: rest)
              (valid_params, special_params) =
              sanitize_aux validate rest
                (dinsert (upperStr key) value valid_params, special_params) from by
            simp [sanitize_aux, hs, hv]]
          exact ih hndrest _ kv hmrest hns hval
        · rw [show sanitize_aux validate ((key, value) :: rest)
              (valid_params, special_params) =
              sanitize_aux validate rest (valid_params, special_params) from by
            simp [sanitize_aux, hs, hv]]
          exact ih hndrest _ kv hmrest hns hval

theorem nodup_filterMap_inj {α β : Type} (f : α → Option β) (l : List α)
    (hnd : (l.filterMap f).Nodup) (x y : α) (hx : x ∈ l) (hy : y ∈ l)
    (K : β) (hfx : f x = some K) (hfy : f y = some K) : x = y := by
  induction l with
  | nil => cases hx
  | cons a rest ih =>
    have hnd' : (rest.filterMap f).Nodup := by
      cases ha : f a with
      | none => simpa [List.filterMap_cons, ha] using hnd
      | some b =>
        rw [List.filterMap_cons, ha] at hnd
        exact (List.nodup_cons.mp hnd).2
    rcases List.mem_cons.mp hx with hxa | hxr
    · rcases List.mem_cons.mp hy with hya | hyr
      · rw [hxa, hya]
      · exfalso
        subst hxa
        rw [List.filterMap_cons, hfx] at hnd
        exact (List.nodup_cons.mp hnd).1 (List.mem_filterMap.mpr ⟨y, hyr, hfy⟩)
    · rcases List.mem_cons.mp hy with hya | hyr
      · exfalso
        subst hya
        rw [List.filterMap_cons, hfy] at hnd
        exact (List.nodup_cons.mp hnd).1 (List.mem_filterMap.mpr ⟨x, hxr, hfx⟩)
      · exact ih hnd' hxr hyr

/-- C3: `_sanitize_kwargs` partitions a kwargs dict (distinct keys, and no
two non-special keys colliding after upper-casing — a Python dict iterated
once): every key of `special_inputs` lands in `special_params` with its
value unchanged, and `special_params` holds nothing else; every other key is
upper-cased and lands in `valid_params` exactly when the validator accepts
its value (with that value), a rejected key being omitted from both outputs;
`valid_params` holds only upper-cased non-special kwargs keys. -/
theorem sanitize_kwargs_partition (validate : String → Value → Bool)
    (kwargs : List (String × Value))
    (hnd : (kwargs.map Prod.fst).Nodup)
    (hup : (kwargs.filterMap upKey?).Nodup) :
    (∀ kv ∈ kwargs, kv.1 ∈ sparc_python_inputs →
        dfind? (sanitize_kwargs validate kwargs).2 kv.1 = some kv.2) ∧
    (∀ k, dcontains (sanitize_kwargs validate kwargs).2 k = true →
        k ∈ sparc_python_inputs ∧ ∃ v, (k, v) ∈ kwargs) ∧
    (∀ kv ∈ kwargs, kv.1 ∉ sparc_python_inputs →
        validate (upperStr kv.1) kv.2 = true →
        dfind? (sanitize_kwargs validate kwargs).1 (upperStr kv.1) = some kv.2) ∧
    (∀ kv ∈ kwargs, kv.1 ∉ sparc_python_inputs →
        validate (upperStr kv.1) kv.2 = false →
        dcontains (sanitize_kwargs validate kwargs).1 (upperStr kv.1) = false) ∧
    (∀ K, dcontains (sanitize_kwargs validate kwargs).1 K = true →
        ∃ kv ∈ kwargs, kv.1 ∉ sparc_python_inputs ∧ upperStr kv.1 = K) := by
  refine ⟨?_, ?_, ?_, ?_, ?_⟩
  · intro kv hm hsp
    exact sanitize_aux_special_find validate kwargs hnd ([], []) kv hm hsp
  · intro k hk
    rcases sanitize_aux_special_mem validate kwargs ([], []) k hk with hacc | h
    · cases hacc
    · exact h
  · intro kv hm hns hval
    exact sanitize_aux_valid_find validate kwargs hup ([], []) kv hm hns hval
  · intro kv hm hns hval
    by_contra hc
    simp only [Bool.not_eq_false] at hc
    rcases sanitize_aux_valid_mem validate kwargs ([], []) (upperStr kv.1) hc with
      hacc | ⟨kv', hm', hns', hup', hval'⟩
    · cases hacc
    · have hkeq : upKey? kv' = some (upperStr kv.1) := by
        simp [upKey?, hns', hup']
      have hkeq2 : upKey? kv = some (upperStr kv.1) := by
        simp [upKey?, hns]
      have : kv = kv' :=
        nodup_filterMap_inj upKey? kwargs hup kv kv' hm hm' (upperStr kv.1) hkeq2 hkeq
      rw [← this] at hval'
      rw [hval] at hval'
      cases hval'
  · intro K hK
    rcases sanitize_aux_valid_mem validate kwargs ([], []) K hK with
      hacc | ⟨kv', hm', hns', hup', _⟩
    · cases hacc
    · exact ⟨kv', hm', hns', hup'⟩

/-- A validator accepting exactly the key `"CALC_STRESS"`, for the witness. -/
def sampleValidate : String → Value → Bool := fun k _ => k == "CALC_STRESS"

/-- A kwargs dict with one special key, one accepted key and one rejected
key, for the witness. -/
def sampleKwargs : List (String × Value) :=
  [("xc", Value.str "pbe"), ("calc_stress", Value.num 1), ("badkey", Value.num 2)]

/-- Witness for C3 on `sampleKwargs`: the special key keeps its value, the
accepted key is upper-cased into `valid_params`, the rejected key is absent,
and `special_params` does not hold the non-special keys. -/
theorem sanitize_kwargs_partition_witness :
    dfind? (sanitize_kwargs sampleValidate sampleKwargs).2 "xc" = some (Value.str "pbe") ∧
    dfind? (sanitize_kwargs sampleValidate sampleKwargs).1 "CALC_STRESS" =
      some (Value.num 1) ∧
    dcontains (sanitize_kwargs sampleValidate sampleKwargs).1 "BADKEY" = false := by
  have h := sanitize_kwargs_partition sampleValidate sampleKwargs (by decide) (by decide)
  refine ⟨?_, ?_, ?_⟩
  · exact h.1 ("xc", Value.str "pbe") (by decide) (by decide)
  · have h2 := h.2.2.1 ("calc_stress", Value.num 1) (by decide) (by decide) (by decide)
    rw [show upperStr "calc_stress" = "CALC_STRESS" from by decide] at h2
    exact h2
  · have h2 := h.2.2.2.1 ("badkey", Value.num 2) (by decide) (by decide) (by decide)
    rw [show upperStr "badkey" = "BADKEY" from by decide] at h2
    exact h2
